import Mathlib

/-!
Verification of the JSON-extraction core of the Abacus_SendToLLM repository.

The extraction logic lives in three near-identical places of the source:
  * `src/legacy/response_processor.py` — class `ResponseProcessor` with
    `extract_json_with_markers`, `extract_json_fallback`,
    `validate_and_parse_json` and `extract_json_report`;
  * `src/scripts/extract_json.py` — `extract_and_save_json` (```json fence
    slicing, brace scan, known-defect repair);
  * `src/extract_json.py` — `extract_and_save_json` (prefix/suffix fence
    stripping, known-defect repair).

Python strings are modelled as `List Char`; `str.find`, `str.rfind`,
`str.strip`, `str.replace` and slicing are given explicit executable
models below.  `json.loads` is modelled by a fuel-indexed recursive-descent
parser over the JSON grammar accepted by Python's `json` module
(objects, arrays, strings with escapes, numbers, `true`/`false`/`null`),
with these documented simplifications: number tokens are kept as their
lexemes (no float semantics), parse-error messages are abbreviated
versions of CPython's (no line/column positions), the nonstandard
`NaN`/`Infinity` constants and surrogate-pair combining are omitted.
All file I/O and `print` diagnostics of the scripts are outside the
modelled values; each modelled function returns exactly the data that
determines the Python function's result.
-/

namespace AbacusSendToLLM

/-- A parsed JSON document, as produced by `json.loads`.  Object members are
kept in textual order (CPython keeps the last duplicate key; the concrete
documents in this development have no duplicate keys).  Number tokens are
kept as lexemes. -/
inductive Json where
  | null : Json
  | bool (b : Bool) : Json
  | num (lexeme : List Char) : Json
  | str (s : List Char) : Json
  | arr (elems : List Json) : Json
  | obj (members : List (List Char × Json)) : Json

/-! ### Models of the Python string primitives -/

/-- Python `str.strip()` whitespace set (ASCII part). -/
def isPyWs (c : Char) : Bool :=
  c = ' ' || c = '\t' || c = '\n' || c = '\r' || c = '\x0b' || c = '\x0c'

/-- Python `str.strip()`: remove leading and trailing whitespace. -/
def pyStrip (s : List Char) : List Char :=
  ((s.dropWhile isPyWs).reverse.dropWhile isPyWs).reverse

/-- Python slicing `s[a:b]` for nonnegative bounds (out-of-range bounds are
clamped, `a ≥ b` yields the empty string). -/
def pySlice (s : List Char) (a b : Nat) : List Char :=
  (s.take b).drop a

/-- Python `hay.find(needle)`: index of the first occurrence of `needle` as a
substring, `none` standing for Python's `-1`. -/
def findSub : List Char → List Char → Option Nat
  | [], needle => if needle.isEmpty then some 0 else none
  | c :: rest, needle =>
      if needle.isPrefixOf (c :: rest) then some 0
      else (findSub rest needle).map (fun k => k + 1)

/-- Python `hay.find(needle, start)`: first occurrence at an index `≥ start`. -/
def findSubFrom (hay needle : List Char) (start : Nat) : Option Nat :=
  (findSub (hay.drop start) needle).map (fun k => k + start)

/-- Python `hay.rfind(c)` for a single-character needle: index of the last
occurrence, `none` standing for `-1`. -/
def rfindChar : List Char → Char → Option Nat
  | [], _ => none
  | c :: rest, ch =>
      match rfindChar rest ch with
      | some i => some (i + 1)
      | none => if c = ch then some 0 else none

/-- Python `needle in hay`. -/
def containsSub (hay needle : List Char) : Bool :=
  (findSub hay needle).isSome

/-- One step of Python `str.replace` bounded by fuel; each recursive call
strictly shrinks the subject, so fuel `s.length` is always sufficient for a
nonempty pattern (both patterns used in the source are nonempty). -/
def replaceAllF : Nat → List Char → List Char → List Char → List Char
  | 0, s, _, _ => s
  | fuel + 1, s, old, new =>
      match s with
      | [] => []
      | c :: rest =>
          if old.isPrefixOf (c :: rest) && !old.isEmpty then
            new ++ replaceAllF fuel ((c :: rest).drop old.length) old new
          else
            c :: replaceAllF fuel rest old new

/-- Python `s.replace(old, new)`: replace every (left-to-right,
non-overlapping) occurrence. -/
def replaceAll (s old new : List Char) : List Char :=
  replaceAllF s.length s old new

/-- Python `s.replace(old, new, 1)`: replace only the first occurrence. -/
def replaceFirst : List Char → List Char → List Char → List Char
  | [], _, _ => []
  | c :: rest, old, new =>
      if old.isPrefixOf (c :: rest) && !old.isEmpty then
        new ++ (c :: rest).drop old.length
      else
        c :: replaceFirst rest old new

/-! ### Model of `json.loads` -/

/-- JSON inter-token whitespace (RFC 8259 / CPython `json`). -/
def isJsonWs (c : Char) : Bool :=
  c = ' ' || c = '\t' || c = '\n' || c = '\r'

def skipWs (s : List Char) : List Char := s.dropWhile isJsonWs

def msg_expecting_value : List Char := ("Expecting value").toList
def msg_property_name : List Char :=
  ("Expecting property name enclosed in double quotes").toList
def msg_colon : List Char := ("Expecting colon delimiter").toList
def msg_comma : List Char := ("Expecting comma delimiter").toList
def msg_extra_data : List Char := ("Extra data").toList
def msg_unterminated : List Char := ("Unterminated string").toList
def msg_control_char : List Char := ("Invalid control character").toList
def msg_invalid_escape : List Char := ("Invalid escape").toList
def msg_depth : List Char := ("Nesting too deep").toList

def hexVal (c : Char) : Option Nat :=
  if '0' ≤ c ∧ c ≤ '9' then some (c.toNat - '0'.toNat)
  else if 'a' ≤ c ∧ c ≤ 'f' then some (c.toNat - 'a'.toNat + 10)
  else if 'A' ≤ c ∧ c ≤ 'F' then some (c.toNat - 'A'.toNat + 10)
  else none

def escChar (c : Char) : Option Char :=
  if c = '"' then some '"'
  else if c = '\\' then some '\\'
  else if c = '/' then some '/'
  else if c = 'b' then some '\x08'
  else if c = 'f' then some '\x0c'
  else if c = 'n' then some '\n'
  else if c = 'r' then some '\r'
  else if c = 't' then some '\t'
  else none

/-- Body of a JSON string after the opening quote; returns the decoded
characters and the remaining input. -/
def parseStr : Nat → List Char → Except (List Char) (List Char × List Char)
  | 0, _ => .error msg_depth
  | fuel + 1, s =>
      match s with
      | [] => .error msg_unterminated
      | c :: rest =>
          if c = '"' then .ok ([], rest)
          else if c = '\\' then
            match rest with
            | [] => .error msg_unterminated
            | e :: r2 =>
                if e = 'u' then
                  match r2 with
                  | h1 :: h2 :: h3 :: h4 :: r3 =>
                      match hexVal h1, hexVal h2, hexVal h3, hexVal h4 with
                      | some a, some b, some c2, some d =>
                          match parseStr fuel r3 with
                          | .ok (str, r) =>
                              .ok (Char.ofNat (((a * 16 + b) * 16 + c2) * 16 + d) :: str, r)
                          | .error er => .error er
                      | _, _, _, _ => .error msg_invalid_escape
                  | _ => .error msg_invalid_escape
                else
                  match escChar e with
                  | some ec =>
                      match parseStr fuel r2 with
                      | .ok (str, r) => .ok (ec :: str, r)
                      | .error er => .error er
                  | none => .error msg_invalid_escape
          else if c.toNat < 32 then .error msg_control_char
          else
            match parseStr fuel rest with
            | .ok (str, r) => .ok (c :: str, r)
            | .error er => .error er

def spanDigits (s : List Char) : List Char × List Char :=
  (s.takeWhile Char.isDigit, s.dropWhile Char.isDigit)

/-- Continue a number lexeme after its integer part: optional fraction and
exponent, exactly as matched by CPython's `NUMBER_RE` (a dot or exponent
without following digits is not consumed). -/
def afterInt (lex : List Char) (s : List Char) : Json × List Char :=
  let (frac, s2) :=
    match s with
    | '.' :: r =>
        match spanDigits r with
        | ([], _) => (([] : List Char), s)
        | (ds, r2) => ('.' :: ds, r2)
    | _ => ([], s)
  let (expPart, s3) :=
    match s2 with
    | e :: r =>
        if e = 'e' ∨ e = 'E' then
          match r with
          | sgn :: r2 =>
              if sgn = '+' ∨ sgn = '-' then
                match spanDigits r2 with
                | ([], _) => (([] : List Char), s2)
                | (ds, r3) => (e :: sgn :: ds, r3)
              else
                match spanDigits r with
                | ([], _) => (([] : List Char), s2)
                | (ds, r3) => (e :: ds, r3)
          | [] => ([], s2)
        else ([], s2)
    | [] => ([], s2)
  (Json.num (lex ++ frac ++ expPart), s3)

/-- A JSON number starting at `s` (also the failure case of a value that
starts with no recognized token, matching CPython's `Expecting value`). -/
def parseNum (s : List Char) : Except (List Char) (Json × List Char) :=
  let (negPart, s1) :=
    match s with
    | '-' :: r => ((['-'] : List Char), r)
    | _ => ([], s)
  match s1 with
  | [] => .error msg_expecting_value
  | c :: rest =>
      if c = '0' then .ok (afterInt (negPart ++ ['0']) rest)
      else if c.isDigit then
        let (ds, r) := spanDigits rest
        .ok (afterInt (negPart ++ c :: ds) r)
      else .error msg_expecting_value

mutual

/-- A JSON value (with leading whitespace), returning the value and the
remaining input.  Fuel-indexed; `json_loads` supplies ample fuel. -/
def parseVal : Nat → List Char → Except (List Char) (Json × List Char)
  | 0, _ => .error msg_depth
  | fuel + 1, s =>
      match skipWs s with
      | [] => .error msg_expecting_value
      | c :: rest =>
          if c = '\x7b' then parseObj fuel rest true []
          else if c = '[' then parseArr fuel rest true []
          else if c = '"' then
            match parseStr fuel rest with
            | .ok (str, r) => .ok (.str str, r)
            | .error e => .error e
          else if c = 't' then
            if ("rue").toList.isPrefixOf rest then .ok (.bool true, rest.drop 3)
            else .error msg_expecting_value
          else if c = 'f' then
            if ("alse").toList.isPrefixOf rest then .ok (.bool false, rest.drop 4)
            else .error msg_expecting_value
          else if c = 'n' then
            if ("ull").toList.isPrefixOf rest then .ok (.null, rest.drop 3)
            else .error msg_expecting_value
          else parseNum (c :: rest)

/-- Object members after `\x7b` (when `first`) or after a comma. -/
def parseObj : Nat → List Char → Bool → List (List Char × Json) →
    Except (List Char) (Json × List Char)
  | 0, _, _, _ => .error msg_depth
  | fuel + 1, s, first, acc =>
      match skipWs s with
      | [] => .error msg_property_name
      | c :: rest =>
          if c = '\x7d' then
            if first then .ok (.obj acc.reverse, rest) else .error msg_property_name
          else if c = '"' then
            match parseStr fuel rest with
            | .error e => .error e
            | .ok (key, r1) =>
                match skipWs r1 with
                | ':' :: r2 =>
                    match parseVal fuel r2 with
                    | .error e => .error e
                    | .ok (v, r3) =>
                        match skipWs r3 with
                        | ',' :: r4 => parseObj fuel r4 false ((key, v) :: acc)
                        | '\x7d' :: r4 => .ok (.obj (((key, v) :: acc).reverse), r4)
                        | _ => .error msg_comma
                | _ => .error msg_colon
          else .error msg_property_name

/-- Array elements after `[` (when `first`) or after a comma. -/
def parseArr : Nat → List Char → Bool → List Json →
    Except (List Char) (Json × List Char)
  | 0, _, _, _ => .error msg_depth
  | fuel + 1, s, first, acc =>
      match skipWs s with
      | [] => .error msg_expecting_value
      | c :: rest =>
          if c = ']' then
            if first then .ok (.arr acc.reverse, rest) else .error msg_expecting_value
          else
            match parseVal fuel (c :: rest) with
            | .error e => .error e
            | .ok (v, r1) =>
                match skipWs r1 with
                | ',' :: r2 => parseArr fuel r2 false (v :: acc)
                | ']' :: r2 => .ok (.arr ((v :: acc).reverse), r2)
                | _ => .error msg_comma

end

/-- Model of Python `json.loads`: parse one JSON document, requiring only
whitespace after it.  Fuel `2 * length + 2` always suffices (every two fuel
steps consume at least one input character). -/
def json_loads (s : List Char) : Except (List Char) Json :=
  match parseVal (2 * s.length + 2) s with
  | .error e => .error e
  | .ok (d, rest) => if (skipWs rest).isEmpty then .ok d else .error msg_extra_data

/-! ### `src/legacy/response_processor.py` — class `ResponseProcessor`

The legacy extractor knows two strategies: marker-delimited extraction and
the first-`\x7b`-to-last-`\x7d` brace scan.  Its method tags are the Python
string literals below; the spec's enumerated tag `brace_scan` is spelled
`"fallback"` by this code, and the spec's `markers` and `none` are spelled
identically. -/

def JSON_START_MARKER : List Char := ("JSON_REPORT_START").toList
def JSON_END_MARKER : List Char := ("JSON_REPORT_END").toList

/-- The code's tag for marker-based extraction (Python literal "markers"). -/
def method_markers : List Char := ("markers").toList

/-- The code's tag for the brace-scan strategy: the Python literal is
"fallback"; the spec names this enumerated tag `brace_scan`. -/
def method_brace_scan : List Char := ("fallback").toList

/-- The code's tag for total failure (Python literal "none"). -/
def method_none : List Char := ("none").toList

/-- `ResponseProcessor.extract_json_with_markers` (lines 39–56): find the
start and end markers; if both are found, return the substring from the end
of the start marker up to the start of the end marker, stripped.  (The code
does not compare the two positions; an end marker before the start marker
yields the empty string.) -/
def extract_json_with_markers (response_text : List Char) : Option (List Char) :=
  match findSub response_text JSON_START_MARKER,
        findSub response_text JSON_END_MARKER with
  | some start_pos, some end_pos =>
      some (pyStrip (pySlice response_text (start_pos + JSON_START_MARKER.length) end_pos))
  | _, _ => none

/-- `ResponseProcessor.extract_json_fallback` (lines 58–74): the substring
from the first `\x7b` through the last `\x7d`, inclusive, when the latter ends
after the former (`end_pos = rfind + 1 > start_pos`); no stripping. -/
def extract_json_fallback (response_text : List Char) : Option (List Char) :=
  match findSub response_text ['\x7b'], rfindChar response_text '\x7d' with
  | some start_pos, some r =>
      if r + 1 > start_pos then some (pySlice response_text start_pos (r + 1))
      else none
  | _, _ => none

/-- `ResponseProcessor.validate_and_parse_json` (lines 76–90): returns
`(is_valid, parsed_data, error_message)`. -/
def validate_and_parse_json (json_content : List Char) :
    Bool × Option Json × Option (List Char) :=
  match json_loads json_content with
  | .ok parsed_data => (true, some parsed_data, none)
  | .error e => (false, none, some e)

/-- The fall-through tail of `ResponseProcessor.extract_json_report`
(lines 112–122): the brace-scan attempt and the final failure return.
`if json_content:` is Python truthiness, false for `None` and for the empty
string.  The `print` diagnostics emitted on parse failure do not affect the
returned value and are not modelled. -/
def report_fallback_stage (response_text : List Char) : Bool × Option Json × List Char :=
  match extract_json_fallback response_text with
  | some json_content =>
      if json_content.isEmpty then (false, none, method_none)
      else
        match validate_and_parse_json json_content with
        | (true, data, _) => (true, data, method_brace_scan)
        | (false, _, _) => (false, none, method_none)
  | none => (false, none, method_none)

/-- `ResponseProcessor.extract_json_report` (lines 92–122): marker-based
extraction first (its parse success returns immediately with tag
"markers"), then the brace-scan fall-through. -/
def extract_json_report (response_text : List Char) : Bool × Option Json × List Char :=
  match extract_json_with_markers response_text with
  | some json_content =>
      if json_content.isEmpty then report_fallback_stage response_text
      else
        match validate_and_parse_json json_content with
        | (true, data, _) => (true, data, method_markers)
        | (false, _, _) => report_fallback_stage response_text
  | none => report_fallback_stage response_text

/-! ### `src/scripts/extract_json.py` and `src/extract_json.py`

Both scripts read `./output/raw_response.txt`, clean it, apply the
known-defect repair, and `json.loads` the result; on success they write
`./output/report.json` and return `True`, on `JSONDecodeError` they print
the error and return `False`.  The modelled core maps the raw text to
`Except error document` — exactly the data deciding the Python result. -/

def fence_json : List Char := ("```json").toList
def fence_bare : List Char := ("```").toList

/-- The guard string of the known-defect repair in `src/scripts/extract_json.py`
(the Python literal includes the surrounding double quotes). -/
def timeline_key : List Char := ("\"timeline_of_events\"").toList

/-- The known defect fragment: a string value immediately followed by an
object-close where an array-close is required (`src/extract_json.py`
lines 31–34, `src/scripts/extract_json.py` lines 49–52). -/
def defect_old : List Char :=
  ("\"2024-05-15: Surgery scheduled after patient consent. *(Source: Document 4, Page 579)*\"\n    \x7d").toList

/-- The replacement: the same fragment with the closing brace replaced by a
closing bracket. -/
def defect_new : List Char :=
  ("\"2024-05-15: Surgery scheduled after patient consent. *(Source: Document 4, Page 579)*\"\n    ]").toList

namespace Scripts

/-- `src/scripts/extract_json.py` lines 26–36: the candidate when a
"```json" opener was found at `json_start0`: text after the opener, up to
the next "```" if one follows, otherwise the remainder; stripped. -/
def fence_candidate (cleaned : List Char) (json_start0 : Nat) : List Char :=
  let json_start := json_start0 + fence_json.length
  match findSubFrom cleaned fence_bare json_start with
  | some json_end => pyStrip (pySlice cleaned json_start json_end)
  | none => pyStrip (cleaned.drop json_start)

/-- `src/scripts/extract_json.py` lines 38–44: the brace-scan candidate used
when no "```json" opener exists: first `\x7b` through last `\x7d` when the
latter is strictly later, stripped; otherwise the text is left unchanged. -/
def brace_candidate (cleaned : List Char) : List Char :=
  match findSub cleaned ['\x7b'] with
  | some brace_start =>
      match rfindChar cleaned '\x7d' with
      | some brace_end =>
          if brace_end > brace_start then
            pyStrip (pySlice cleaned brace_start (brace_end + 1))
          else cleaned
      | none => cleaned
  | none => cleaned

/-- `src/scripts/extract_json.py` lines 20–44: strip the raw text, then
either the fence slicing (when "```json" occurs) or the brace scan. -/
def cleaned_content (raw_content : List Char) : List Char :=
  match findSub (pyStrip raw_content) fence_json with
  | some json_start0 => fence_candidate (pyStrip raw_content) json_start0
  | none => brace_candidate (pyStrip raw_content)

/-- `src/scripts/extract_json.py` lines 46–52: the known-defect repair,
guarded by the presence of the `timeline_key` literal; Python `str.replace`
replaces every occurrence. -/
def fix_timeline (c : List Char) : List Char :=
  if containsSub c timeline_key then replaceAll c defect_old defect_new else c

/-- The value core of `extract_and_save_json` in `src/scripts/extract_json.py`:
clean, repair, parse.  `.ok doc` is the Python `True` path (the parsed
document that gets written to `./output/report.json`); `.error e` is the
`JSONDecodeError` path returning `False`. -/
def extract_and_save_json (raw_content : List Char) : Except (List Char) Json :=
  json_loads (fix_timeline (cleaned_content raw_content))

end Scripts

namespace RootScript

/-- `src/extract_json.py` lines 20–28: strip, drop a leading "```json"
(Python `replace('```json', '', 1)` under a `startswith` guard), drop a
trailing "```" (Python `rsplit('```', 1)[0]` under an `endswith` guard,
which removes exactly the last three characters), strip again. -/
def cleaned_content (raw_content : List Char) : List Char :=
  let c := pyStrip raw_content
  let c := if fence_json.isPrefixOf c then replaceFirst c fence_json [] else c
  let c := if fence_bare.isSuffixOf c then c.take (c.length - 3) else c
  pyStrip c

/-- `src/extract_json.py` lines 31–34: the known-defect repair, applied
unconditionally; Python `str.replace` replaces every occurrence. -/
def fix_timeline (c : List Char) : List Char :=
  replaceAll c defect_old defect_new

/-- The value core of `extract_and_save_json` in `src/extract_json.py`. -/
def extract_and_save_json (raw_content : List Char) : Except (List Char) Json :=
  json_loads (fix_timeline (cleaned_content raw_content))

end RootScript

/-! ### Helper lemmas -/

theorem json_loads_nil : json_loads [] = .error msg_expecting_value := rfl

theorem pySlice_eq_nil (s : List Char) (a b : Nat) (h : b ≤ a) :
    pySlice s a b = [] := by
  unfold pySlice
  apply List.drop_eq_nil_of_le
  rw [List.length_take]
  omega

theorem findSub_some_prefix :
    ∀ (t needle : List Char) (i : Nat), findSub t needle = some i →
      needle.isPrefixOf (t.drop i) = true := by
  intro t
  induction t with
  | nil =>
      intro needle i h
      unfold findSub at h
      by_cases hn : needle.isEmpty
      · have : needle = [] := by simpa using hn
        subst this
        simp [List.isPrefixOf]
      · simp [hn] at h
  | cons c rest ih =>
      intro needle i h
      unfold findSub at h
      by_cases hp : needle.isPrefixOf (c :: rest)
      · rw [if_pos hp] at h
        cases h
        simpa using hp
      · rw [if_neg hp] at h
        cases hk : findSub rest needle with
        | none => rw [hk] at h; cases h
        | some k =>
            rw [hk] at h
            cases h
            simpa using ih needle k hk

theorem rfindChar_head :
    ∀ (t : List Char) (ch : Char) (r : Nat), rfindChar t ch = some r →
      (t.drop r).head? = some ch := by
  intro t
  induction t with
  | nil => intro ch r h; cases h
  | cons c rest ih =>
      intro ch r h
      unfold rfindChar at h
      cases hr : rfindChar rest ch with
      | some i =>
          rw [hr] at h
          cases h
          simpa using ih ch i hr
      | none =>
          rw [hr] at h
          by_cases hc : c = ch
          · rw [if_pos hc] at h
            cases h
            simp [hc]
          · rw [if_neg hc] at h
            cases h

theorem rfindChar_lt (t : List Char) (ch : Char) (r : Nat)
    (h : rfindChar t ch = some r) : r < t.length := by
  have hh := rfindChar_head t ch r h
  by_contra hle
  push_neg at hle
  rw [List.drop_eq_nil_of_le hle] at hh
  cases hh

/-- A list whose first and last characters are not Python whitespace is
unchanged by `str.strip()`. -/
theorem pyStrip_eq_self (l : List Char) (a b : Char)
    (ha : l.head? = some a) (hb : l.getLast? = some b)
    (hwa : isPyWs a = false) (hwb : isPyWs b = false) : pyStrip l = l := by
  unfold pyStrip
  have h1 : l.dropWhile isPyWs = l := by
    cases l with
    | nil => cases ha
    | cons x xs =>
        have hx : x = a := by simpa using ha
        subst hx
        exact List.dropWhile_cons_of_neg (by simp [hwa])
  rw [h1]
  have hrev : l.reverse.head? = some b := by
    rw [List.head?_reverse]; exact hb
  have h2 : l.reverse.dropWhile isPyWs = l.reverse := by
    cases hr : l.reverse with
    | nil => rw [hr] at hrev; cases hrev
    | cons y ys =>
        rw [hr] at hrev
        have hy : y = b := by simpa using hrev
        subst hy
        exact List.dropWhile_cons_of_neg (by simp [hwb])
  rw [h2, List.reverse_reverse]

/-- The brace-scan slice starts at `\x7b` and ends at `\x7d`, so stripping it
is the identity. -/
theorem pyStrip_brace_slice (t : List Char) (s r : Nat)
    (hs : findSub t ['\x7b'] = some s)
    (hr : rfindChar t '\x7d' = some r)
    (hlt : s < r) :
    pyStrip (pySlice t s (r + 1)) = pySlice t s (r + 1) := by
  have hrlt : r < t.length := rfindChar_lt t '\x7d' r hr
  have hpre := findSub_some_prefix t ['\x7b'] s hs
  obtain ⟨u, hu⟩ := List.isPrefixOf_iff_prefix.mp hpre
  have hsget : t[s]? = some '\x7b' := by
    have h0 : (t.drop s)[0]? = some '\x7b' := by
      rw [← hu]; simp
    rw [List.getElem?_drop] at h0
    simpa using h0
  have hrget : t[r]? = some '\x7d' := by
    have h0 := rfindChar_head t '\x7d' r hr
    rw [List.head?_eq_getElem?, List.getElem?_drop] at h0
    simpa using h0
  have hhead : (pySlice t s (r + 1)).head? = some '\x7b' := by
    rw [List.head?_eq_getElem?]
    unfold pySlice
    rw [List.getElem?_drop, Nat.add_zero, List.getElem?_take_of_lt (by omega)]
    exact hsget
  have hlen : (pySlice t s (r + 1)).length = r + 1 - s := by
    unfold pySlice
    rw [List.length_drop, List.length_take]
    omega
  have hlast : (pySlice t s (r + 1)).getLast? = some '\x7d' := by
    rw [List.getLast?_eq_getElem?, hlen]
    unfold pySlice
    rw [List.getElem?_drop]
    have hidx : s + (r + 1 - s - 1) = r := by omega
    rw [hidx, List.getElem?_take_of_lt (by omega)]
    exact hrget
  exact pyStrip_eq_self _ '\x7b' '\x7d' hhead hlast (by decide) (by decide)

theorem replaceAllF_eq_self :
    ∀ (fuel : Nat) (s old new : List Char), findSub s old = none →
      replaceAllF fuel s old new = s := by
  intro fuel
  induction fuel with
  | zero => intro s old new _; rfl
  | succ f ih =>
      intro s old new h
      cases s with
      | nil => rfl
      | cons c rest =>
          unfold findSub at h
          by_cases hp : old.isPrefixOf (c :: rest)
          · rw [if_pos hp] at h; cases h
          · rw [if_neg hp] at h
            have hrest : findSub rest old = none := by
              cases hk : findSub rest old with
              | none => rfl
              | some k => rw [hk] at h; cases h
            show (if (old.isPrefixOf (c :: rest) && !old.isEmpty) = true then
                new ++ replaceAllF f (List.drop old.length (c :: rest)) old new
              else c :: replaceAllF f rest old new) = c :: rest
            rw [if_neg (by simp [hp])]
            rw [ih rest old new hrest]

theorem replaceAll_eq_self (s old new : List Char) (h : findSub s old = none) :
    replaceAll s old new = s :=
  replaceAllF_eq_self s.length s old new h

/-- If every nonempty marker candidate fails to parse (vacuously true when
the markers are not found), `extract_json_report` is its fall-through tail. -/
theorem extract_json_report_of_markers_fail (t : List Char)
    (H : ∀ c, extract_json_with_markers t = some c → c.isEmpty = false →
      ∃ e, json_loads c = .error e) :
    extract_json_report t = report_fallback_stage t := by
  unfold extract_json_report
  cases h : extract_json_with_markers t with
  | none => rfl
  | some c =>
      cases hc : c.isEmpty with
      | true => simp [hc]
      | false =>
          obtain ⟨e, he⟩ := H c h hc
          simp [hc, validate_and_parse_json, he]

/-- The fall-through tail either succeeds with the brace-scan tag or fails
with the "none" tag. -/
theorem report_fallback_stage_shape (t : List Char) :
    (∃ d, report_fallback_stage t = (true, some d, method_brace_scan)) ∨
      report_fallback_stage t = (false, none, method_none) := by
  unfold report_fallback_stage
  cases h : extract_json_fallback t with
  | none => right; rfl
  | some c =>
      cases hc : c.isEmpty with
      | true => right; simp [hc]
      | false =>
          cases hj : json_loads c with
          | ok d => left; exact ⟨d, by simp [hc, validate_and_parse_json, hj]⟩
          | error e => right; simp [hc, validate_and_parse_json, hj]

/-! ### The claims -/

/-- C1: for every input containing `JSON_REPORT_START` followed (as first
occurrences, per Python `find`) by `JSON_REPORT_END`, such that the trimmed
substring strictly between the markers parses as JSON, `extract_json_report`
returns success with the marker method and that document — whatever else
the input contains (the brace-scan strategy is never consulted, so marker
success is final; the legacy extractor has no fence strategy at all). -/
theorem claim_C1 (t : List Char) (sp ep : Nat) (d : Json)
    (h1 : findSub t JSON_START_MARKER = some sp)
    (h2 : findSub t JSON_END_MARKER = some ep)
    (h3 : sp < ep)
    (h4 : json_loads (pyStrip (pySlice t (sp + JSON_START_MARKER.length) ep)) = .ok d) :
    extract_json_report t = (true, some d, method_markers) := by
  have hm : extract_json_with_markers t
      = some (pyStrip (pySlice t (sp + JSON_START_MARKER.length) ep)) := by
    unfold extract_json_with_markers
    rw [h1, h2]
  have hne : (pyStrip (pySlice t (sp + JSON_START_MARKER.length) ep)).isEmpty = false := by
    cases hcc : (pyStrip (pySlice t (sp + JSON_START_MARKER.length) ep)).isEmpty
    · rfl
    · exfalso
      have hnil : pyStrip (pySlice t (sp + JSON_START_MARKER.length) ep) = [] := by
        simpa using hcc
      rw [hnil, json_loads_nil] at h4
      cases h4
  unfold extract_json_report
  rw [hm]
  simp [hne, validate_and_parse_json, h4]

/-- Scenario A of the spec, used as the C1 witness input. -/
def scenarioA : List Char :=
  ("Here is the result:\nJSON_REPORT_START\n\x7b\"a\": 1\x7d\nJSON_REPORT_END\nThanks.").toList

theorem claim_C1_witness :
    extract_json_report scenarioA =
      (true, some (Json.obj [(("a").toList, Json.num ("1").toList)]), method_markers) :=
  claim_C1 scenarioA 20 47 (Json.obj [(("a").toList, Json.num ("1").toList)])
    rfl rfl (by omega) rfl

/-- C5: the extractor is a total function into result values — on every
input it either succeeds with a document or returns the failure triple
`(False, None, "none")`; no outcome is an exception, and the input, a pure
value, is never mutated.  (In the Python source the only operations applied
to the input are `find`, `rfind`, slicing and `json.loads`, none of which
mutate; `json.loads` errors are caught and turned into the failure path.) -/
theorem claim_C5 (t : List Char) :
    ((extract_json_report t).1 = true ∧ ∃ d, (extract_json_report t).2.1 = some d) ∨
      extract_json_report t = (false, none, method_none) := by
  have hstage : ((report_fallback_stage t).1 = true ∧
      ∃ d, (report_fallback_stage t).2.1 = some d) ∨
      report_fallback_stage t = (false, none, method_none) := by
    rcases report_fallback_stage_shape t with ⟨d, hd⟩ | h
    · left; rw [hd]; exact ⟨rfl, d, rfl⟩
    · right; exact h
  unfold extract_json_report
  cases hm : extract_json_with_markers t with
  | none => exact hstage
  | some c =>
      cases hc : c.isEmpty with
      | true => simpa [hc] using hstage
      | false =>
          cases hj : json_loads c with
          | ok d =>
              left
              constructor
              · simp [hc, validate_and_parse_json, hj]
              · exact ⟨d, by simp [hc, validate_and_parse_json, hj]⟩
          | error e => simpa [hc, validate_and_parse_json, hj] using hstage

/-- C7: when the end marker is absent, or the (first) end marker occurs
before the (first) start marker, the marker strategy does not apply: the
extractor neither returns the marker method nor aborts, it computes exactly
its fall-through tail (brace scan, then failure). -/
theorem claim_C7 (t : List Char)
    (H : findSub t JSON_END_MARKER = none ∨
      ∃ sp ep, findSub t JSON_START_MARKER = some sp ∧
        findSub t JSON_END_MARKER = some ep ∧ ep < sp) :
    extract_json_report t = report_fallback_stage t ∧
      (extract_json_report t).2.2 ≠ method_markers := by
  have heq : extract_json_report t = report_fallback_stage t := by
    apply extract_json_report_of_markers_fail
    rcases H with h | ⟨sp, ep, h1, h2, h3⟩
    · intro c hc
      unfold extract_json_with_markers at hc
      rw [h] at hc
      cases hfs : findSub t JSON_START_MARKER with
      | none => rw [hfs] at hc; cases hc
      | some sp => rw [hfs] at hc; cases hc
    · intro c hc hne
      have hm : extract_json_with_markers t
          = some (pyStrip (pySlice t (sp + JSON_START_MARKER.length) ep)) := by
        unfold extract_json_with_markers
        rw [h1, h2]
      rw [hm, pySlice_eq_nil t (sp + JSON_START_MARKER.length) ep (by omega)] at hc
      cases hc
      exact absurd hne (by decide)
  refine ⟨heq, ?_⟩
  rw [heq]
  rcases report_fallback_stage_shape t with ⟨d, hd⟩ | h
  · rw [hd]
    exact (by decide : method_brace_scan ≠ method_markers)
  · rw [h]
    exact (by decide : method_none ≠ method_markers)

/-- The C7 witness input: the end marker precedes the start marker, so the
marker strategy falls through and the brace scan succeeds instead. -/
def endBeforeStart : List Char :=
  ("JSON_REPORT_END x JSON_REPORT_START \x7b\"a\": 1\x7d").toList

theorem claim_C7_witness :
    extract_json_report endBeforeStart = report_fallback_stage endBeforeStart ∧
      (extract_json_report endBeforeStart).2.2 ≠ method_markers :=
  claim_C7 endBeforeStart (Or.inr ⟨18, 0, rfl, rfl, by omega⟩)

/-- C8: with no start marker and no brace pair whose last `\x7d` lies
strictly after the first `\x7b` — including prose with no brace at all, and
unbalanced input with no closing brace — the extractor returns the failure
triple `(False, None, "none")`. -/
theorem claim_C8 (t : List Char)
    (hm : findSub t JSON_START_MARKER = none)
    (hb : ∀ s r, findSub t ['\x7b'] = some s → rfindChar t '\x7d' = some r → r < s) :
    extract_json_report t = (false, none, method_none) := by
  have h1 : extract_json_with_markers t = none := by
    unfold extract_json_with_markers
    rw [hm]
  have h2 : extract_json_fallback t = none := by
    unfold extract_json_fallback
    cases hs : findSub t ['\x7b'] with
    | none => rfl
    | some s =>
        cases hr : rfindChar t '\x7d' with
        | none => rfl
        | some r =>
            have := hb s r hs hr
            show (if r + 1 > s then some (pySlice t s (r + 1)) else none) = none
            rw [if_neg (by omega)]
  unfold extract_json_report
  rw [h1]
  unfold report_fallback_stage
  rw [h2]

/-- Scenario E of the spec (unbalanced braces, no closing brace), used as
the C8 witness input. -/
def scenarioE : List Char := ("\x7b\"x\": 1").toList

theorem claim_C8_witness :
    extract_json_report scenarioE = (false, none, method_none) :=
  claim_C8 scenarioE rfl (fun s r _ hr => nomatch hr)

/-- C9: extraction is deterministic and stateless — it is modelled by a
pure function of the input alone, so two invocations on identical input
yield identical results (the Python code reads no state besides its
argument and two string-constant class attributes; its `print` calls do not
feed back into the result). -/
theorem claim_C9 (t1 t2 : List Char) (h : t1 = t2) :
    extract_json_report t1 = extract_json_report t2 := by
  rw [h]

theorem claim_C9_witness :
    extract_json_report (("Result: \x7b\"c\": true\x7d").toList) =
      extract_json_report (("Result: \x7b\"c\": true\x7d").toList) :=
  claim_C9 (("Result: \x7b\"c\": true\x7d").toList) (("Result: \x7b\"c\": true\x7d").toList) rfl

/-- C3: when the marker strategy does not succeed (vacuously covering the
legacy extractor, which has no fence strategy), and the last `\x7d` occurs
strictly after the first `\x7b`, the extractor takes the inclusive substring
between them, trims it (a no-op, proved via `pyStrip_brace_slice`), parses
it, and on success returns the brace-scan method (Python tag "fallback"). -/
theorem claim_C3 (t : List Char) (s r : Nat) (d : Json)
    (H : ∀ c, extract_json_with_markers t = some c → c.isEmpty = false →
      ∃ e, json_loads c = .error e)
    (hs : findSub t ['\x7b'] = some s)
    (hr : rfindChar t '\x7d' = some r)
    (hlt : s < r)
    (hd : json_loads (pyStrip (pySlice t s (r + 1))) = .ok d) :
    extract_json_report t = (true, some d, method_brace_scan) := by
  have hstrip := pyStrip_brace_slice t s r hs hr hlt
  rw [hstrip] at hd
  have hfb : extract_json_fallback t = some (pySlice t s (r + 1)) := by
    unfold extract_json_fallback
    rw [hs, hr]
    show (if r + 1 > s then some (pySlice t s (r + 1)) else none)
      = some (pySlice t s (r + 1))
    rw [if_pos (by omega)]
  have hne : (pySlice t s (r + 1)).isEmpty = false := by
    cases hcc : (pySlice t s (r + 1)).isEmpty
    · rfl
    · exfalso
      have hnil : pySlice t s (r + 1) = [] := by simpa using hcc
      rw [hnil, json_loads_nil] at hd
      cases hd
  rw [extract_json_report_of_markers_fail t H]
  unfold report_fallback_stage
  rw [hfb]
  simp [hne, validate_and_parse_json, hd]

/-- Scenario C of the spec, used as the C3 witness input. -/
def scenarioC : List Char := ("Result: \x7b\"c\": true\x7d — done").toList

theorem claim_C3_witness :
    extract_json_report scenarioC =
      (true, some (Json.obj [(("c").toList, Json.bool true)]), method_brace_scan) :=
  claim_C3 scenarioC 8 18 (Json.obj [(("c").toList, Json.bool true)])
    (fun c hc _ => nomatch hc) rfl rfl (by omega) rfl

/-- The last JSON-parse error encountered by the legacy extractor — per the
claim, the error of the brace-scan candidate.  It is computed here from the
strategy functions because `extract_json_report`'s returned value does not
carry it (the code only prints it). -/
def brace_error (t : List Char) : Option (List Char) :=
  match extract_json_fallback t with
  | some c =>
      match json_loads c with
      | .error e => some e
      | .ok _ => none
  | none => none

def c6_left : List Char := ("x \x7ba\x7d y").toList
def c6_right : List Char := ("x \x7b\x7d\x7d y").toList

/-- C6 counterexample: the returned triple carries no error and no raw
slice.  These two inputs fail with different brace-scan parse errors and
different candidate slices, yet `extract_json_report` returns the very same
value `(False, None, "none")` on both — so no field of the result can be
"the last JSON-parse error encountered", nor "the best candidate substring
that was tried", refuting the claim at these inputs. -/
theorem claim_C6_counterexample :
    extract_json_report c6_left = extract_json_report c6_right ∧
      brace_error c6_left = some msg_property_name ∧
      brace_error c6_right = some msg_extra_data ∧
      msg_property_name ≠ msg_extra_data ∧
      extract_json_fallback c6_left ≠ extract_json_fallback c6_right :=
  ⟨rfl, rfl, rfl, by decide, by decide⟩

/-- C6 amended: whenever no strategy yields a parseable document — every
nonempty marker candidate and every nonempty brace-scan candidate fails to
parse — the extractor returns `succeeded = False`, no document, and method
tag "none".  The last parse error (the brace-scan one) and the candidate
slices are only printed as diagnostics; they are not part of the returned
value. -/
theorem claim_C6_amended (t : List Char)
    (Hm : ∀ c, extract_json_with_markers t = some c → c.isEmpty = false →
      ∃ e, json_loads c = .error e)
    (Hf : ∀ c, extract_json_fallback t = some c → c.isEmpty = false →
      ∃ e, json_loads c = .error e) :
    extract_json_report t = (false, none, method_none) := by
  rw [extract_json_report_of_markers_fail t Hm]
  unfold report_fallback_stage
  cases hf : extract_json_fallback t with
  | none => rfl
  | some c =>
      cases hc : c.isEmpty with
      | true => simp [hc]
      | false =>
          obtain ⟨e, he⟩ := Hf c hf hc
          simp [hc, validate_and_parse_json, he]

theorem claim_C6_amended_witness :
    extract_json_report (("x \x7ba\x7d y").toList) = (false, none, method_none) :=
  claim_C6_amended (("x \x7ba\x7d y").toList)
    (fun c hc _ => nomatch hc)
    (fun c hc hne => by
      cases hc
      exact ⟨msg_property_name, rfl⟩)

/-- The input refuting C2's bare-fence clause: a bare "```" fence encloses
valid JSON, while the surrounding text makes the brace-scan candidate
unparseable. -/
def c2_input : List Char := ("x \x7b y\n```\n\x7b\"a\": 1\x7d\n```").toList

/-- C2 counterexample: the claim says a bare "```" opener (with no "```json")
gets the same slicing treatment.  On this input there is no "```json"
opener, the bare opener sits at index 6 with the closing fence at index 19,
and the claim's fenced candidate — the trimmed text between them — parses
as JSON, so the claim requires success; but `src/scripts/extract_json.py`
never slices a bare fence (it brace-scans instead, over text that does not
parse) and fails. -/
theorem claim_C2_counterexample :
    findSub (pyStrip c2_input) fence_json = none ∧
      findSub (pyStrip c2_input) fence_bare = some 6 ∧
      findSubFrom (pyStrip c2_input) fence_bare (6 + fence_bare.length) = some 19 ∧
      json_loads (pyStrip (pySlice (pyStrip c2_input) (6 + fence_bare.length) 19)) =
        .ok (Json.obj [(("a").toList, Json.num ("1").toList)]) ∧
      Scripts.extract_and_save_json c2_input = .error msg_property_name :=
  ⟨rfl, rfl, rfl, rfl, rfl⟩

/-- C2 amended: when a "```json" opener is present, the candidate is the
text after the opener, sliced up to the next "```" when one follows and
otherwise to the end of the string (an unclosed fence is tolerated), then
trimmed; when this candidate parses as JSON (and does not contain the
known-defect repair trigger, which could rewrite it), the script succeeds
with that document, and the brace scan is never consulted.  A bare "```"
opener without "```json" is NOT treated as a fence — the brace scan is
applied directly (see C10). -/
theorem claim_C2_amended (raw : List Char) (j : Nat) (d : Json)
    (hj : findSub (pyStrip raw) fence_json = some j)
    (hguard : containsSub (Scripts.fence_candidate (pyStrip raw) j) timeline_key = false)
    (hd : json_loads (Scripts.fence_candidate (pyStrip raw) j) = .ok d) :
    Scripts.extract_and_save_json raw = .ok d := by
  have hclean : Scripts.cleaned_content raw = Scripts.fence_candidate (pyStrip raw) j := by
    unfold Scripts.cleaned_content
    rw [hj]
  have hfix : Scripts.fix_timeline (Scripts.fence_candidate (pyStrip raw) j)
      = Scripts.fence_candidate (pyStrip raw) j := by
    unfold Scripts.fix_timeline
    rw [hguard]
    simp
  unfold Scripts.extract_and_save_json
  rw [hclean, hfix, hd]

/-- Scenario B of the spec, used as the C2 witness input. -/
def scenarioB : List Char := ("Sure:\n```json\n\x7b\"b\": [1,2,3]\x7d\n```\n").toList

theorem claim_C2_amended_witness :
    Scripts.extract_and_save_json scenarioB =
      .ok (Json.obj [(("b").toList,
        Json.arr [Json.num ("1").toList, Json.num ("2").toList, Json.num ("3").toList])]) :=
  claim_C2_amended scenarioB 6
    (Json.obj [(("b").toList,
      Json.arr [Json.num ("1").toList, Json.num ("2").toList, Json.num ("3").toList])])
    rfl rfl rfl

/-- The candidate refuting C4's "at most once": it contains the known
defect fragment twice. -/
def c4_two : List Char := defect_old ++ (",").toList ++ defect_old

set_option maxRecDepth 40000 in
/-- C4 counterexample: the repair is Python `str.replace`, which replaces
every occurrence of the defect fragment — on a candidate containing the
fragment twice the result differs both from the untouched candidate and
from the candidate with only its first occurrence substituted, so the
substitution is not "applied at most once per extraction attempt". -/
theorem claim_C4_counterexample :
    RootScript.fix_timeline c4_two = defect_new ++ (",").toList ++ defect_new ∧
      RootScript.fix_timeline c4_two ≠ c4_two ∧
      RootScript.fix_timeline c4_two ≠ replaceFirst c4_two defect_old defect_new := by
  refine ⟨by decide, by decide, by decide⟩

/-- C4 amended: the repair pass performs one guaranteed kind of textual
substitution — the known defect fragment in which a string value is
immediately followed by a closing `\x7d` where a closing `]` is required —
but it replaces every occurrence of that fragment, unconditionally, before
the single parse attempt (there is no separate re-parse).  Candidates not
containing the fragment are left unchanged, and when such a candidate fails
to parse the script reports that JSON parse error (`MalformedJson`). -/
theorem claim_C4_amended (raw : List Char) (e : List Char)
    (habsent : findSub (RootScript.cleaned_content raw) defect_old = none)
    (herr : json_loads (RootScript.cleaned_content raw) = .error e) :
    RootScript.fix_timeline (RootScript.cleaned_content raw)
        = RootScript.cleaned_content raw ∧
      RootScript.extract_and_save_json raw = .error e := by
  have hfix : RootScript.fix_timeline (RootScript.cleaned_content raw)
      = RootScript.cleaned_content raw :=
    replaceAll_eq_self (RootScript.cleaned_content raw) defect_old defect_new habsent
  refine ⟨hfix, ?_⟩
  unfold RootScript.extract_and_save_json
  rw [hfix, herr]

theorem claim_C4_amended_witness :
    RootScript.fix_timeline (RootScript.cleaned_content (("\x7bbad").toList))
        = RootScript.cleaned_content (("\x7bbad").toList) ∧
      RootScript.extract_and_save_json (("\x7bbad").toList) = .error msg_property_name :=
  claim_C4_amended (("\x7bbad").toList) msg_property_name rfl rfl

/-- C10: in `src/scripts/extract_json.py` the presence of a "```json"
opener commits extraction to the fenced candidate — when that candidate
(after the repair pass) fails to parse, the whole extraction fails with
that error, whatever the rest of the text contains; and when no "```json"
opener exists the script goes directly to the brace-scan candidate, so a
bare "```" opener is never treated as a fence. -/
theorem claim_C10 (raw : List Char) :
    (∀ j e, findSub (pyStrip raw) fence_json = some j →
        json_loads (Scripts.fix_timeline (Scripts.fence_candidate (pyStrip raw) j))
          = .error e →
        Scripts.extract_and_save_json raw = .error e) ∧
      (findSub (pyStrip raw) fence_json = none →
        Scripts.extract_and_save_json raw
          = json_loads (Scripts.fix_timeline (Scripts.brace_candidate (pyStrip raw)))) := by
  constructor
  · intro j e hj he
    have hclean : Scripts.cleaned_content raw = Scripts.fence_candidate (pyStrip raw) j := by
      unfold Scripts.cleaned_content
      rw [hj]
    unfold Scripts.extract_and_save_json
    rw [hclean, he]
  · intro hn
    have hclean : Scripts.cleaned_content raw = Scripts.brace_candidate (pyStrip raw) := by
      unfold Scripts.cleaned_content
      rw [hn]
    unfold Scripts.extract_and_save_json
    rw [hclean]

/-- A fenced candidate that does not parse, next to a brace-scan candidate
that would. -/
def c10_fenced : List Char := ("```json\nnope\n```\n\x7b\"ok\": 1\x7d").toList

/-- An input whose only fence is bare. -/
def c10_bare : List Char := ("```\n\x7b\"b\": 2\x7d\n```").toList

theorem claim_C10_witness :
    (Scripts.extract_and_save_json c10_fenced = .error msg_expecting_value ∧
        json_loads (Scripts.brace_candidate (pyStrip c10_fenced))
          = .ok (Json.obj [(("ok").toList, Json.num ("1").toList)])) ∧
      Scripts.extract_and_save_json c10_bare
        = json_loads (Scripts.fix_timeline (Scripts.brace_candidate (pyStrip c10_bare))) :=
  ⟨⟨(claim_C10 c10_fenced).1 0 msg_expecting_value rfl rfl, rfl⟩,
    (claim_C10 c10_bare).2 rfl⟩

end AbacusSendToLLM
